import Mathlib

/-!
Verification of the TrafficDataMarketplace contract
(src/contracts/TrafficData_Z.sol) and the decryption-verification
protocol of the web frontend (src/frontend/web/src/App.tsx),
as a shallow embedding in Lean 4.

Addresses, ciphertext handles, external ciphertexts and proofs are
modelled as natural numbers; `euint32` handles are opaque and never
inspected, matching the source.  The `FHE` library calls
(`fromExternal`, `isInitialized`, `allowThis`,
`makePubliclyDecryptable`) are consumed through an abstract
environment, mirroring the fact that the contract treats them as an
external capability.  Solidity `require` failures revert the whole
transaction; accordingly every operation returns `Except`, and the
caller keeps the old state on an error.
-/

namespace TrafficZ

/-- The FHE capability consumed by the contract: converting an external
ciphertext plus input proof to a handle, and checking a handle is
initialized (i.e. the proof verified).  Opaque, supplied as a
parameter. -/
structure FHEEnv where
  fromExternal : Nat → Nat → Nat
  isInitialized : Nat → Bool

/-- `struct TrafficRecord` of TrafficData_Z.sol. -/
structure TrafficRecord where
  encryptedSpeed : Nat
  encryptedLocationX : Nat
  encryptedLocationY : Nat
  timestamp : Nat
  vehicleOwner : Nat
deriving Repr, DecidableEq

/-- `struct AggregatedData` of TrafficData_Z.sol. -/
structure AggregatedData where
  encryptedHeatmapValue : Nat
  startTime : Nat
  endTime : Nat
  price : Nat
  owner : Nat
  isSold : Bool
deriving Repr, DecidableEq

/-- The events declared by the contract. -/
inductive Event where
  | TrafficRecordAdded (recordId : Nat) (vehicleOwner : Nat)
  | AggregatedDataCreated (dataId : Nat) (owner : Nat)
  | DataSold (dataId : Nat) (buyer : Nat)
  | Withdrawal (payee : Nat) (amount : Nat)
deriving Repr, DecidableEq

/-- Error taxonomy: one constructor per `require` message of the
contract (plus the protocol errors introduced below). -/
inductive MarketErr where
  | InvalidCiphertext
  | InvalidTimeRange
  | InvalidPrice
  | NotFound
  | AlreadySold
  | InsufficientPayment
  | NoFunds
deriving Repr, DecidableEq

/-- Contract storage.  The two `mapping(uint256 => ...)` tables are
only ever written at index `recordCount` / `aggregatedCount`, which
only ever increments, so they are dense and are modelled as lists
(index = id).  `withdrawals` is the escrow mapping.  `allowedThis` and
`publiclyDecryptable` record the handles passed to `FHE.allowThis` and
`FHE.makePubliclyDecryptable`; `events` is the emitted event log in
chronological order. -/
structure MarketState where
  trafficRecords : List TrafficRecord
  aggregatedData : List AggregatedData
  withdrawals : Nat → Nat
  allowedThis : List Nat
  publiclyDecryptable : List Nat
  events : List Event

/-- `recordCount` (maintained as the length of the dense table). -/
def MarketState.recordCount (s : MarketState) : Nat :=
  s.trafficRecords.length

/-- `aggregatedCount`. -/
def MarketState.aggregatedCount (s : MarketState) : Nat :=
  s.aggregatedData.length

/-- `getTotalRecords()`. -/
def getTotalRecords (s : MarketState) : Nat :=
  s.recordCount

/-- `getTotalAggregatedData()`. -/
def getTotalAggregatedData (s : MarketState) : Nat :=
  s.aggregatedCount

/-- `isAvailable()` — `public pure`, so it takes the state but may not
read it; the body is literally `return true`. -/
def isAvailable (_s : MarketState) : Bool :=
  true

/-- `addTrafficRecord`: three `require(FHE.isInitialized(FHE.fromExternal(...)))`
checks in source order, then the record is stored with
`timestamp = block.timestamp`, `vehicleOwner = msg.sender`, the three
handles get `allowThis` and `makePubliclyDecryptable`, the
`TrafficRecordAdded(recordCount, msg.sender)` event is emitted, and
`recordCount` increments.  Returns the id carried by the event (the
pre-call count). -/
def addTrafficRecord (env : FHEEnv) (s : MarketState)
    (encryptedSpeed speedProof encryptedLocationX locationXProof
     encryptedLocationY locationYProof : Nat)
    (sender time : Nat) : Except MarketErr (Nat × MarketState) :=
  if env.isInitialized (env.fromExternal encryptedSpeed speedProof) = false then
    .error .InvalidCiphertext
  else if env.isInitialized (env.fromExternal encryptedLocationX locationXProof) = false then
    .error .InvalidCiphertext
  else if env.isInitialized (env.fromExternal encryptedLocationY locationYProof) = false then
    .error .InvalidCiphertext
  else
    .ok (s.recordCount,
      { s with
        trafficRecords := s.trafficRecords ++
          [{ encryptedSpeed := env.fromExternal encryptedSpeed speedProof,
             encryptedLocationX := env.fromExternal encryptedLocationX locationXProof,
             encryptedLocationY := env.fromExternal encryptedLocationY locationYProof,
             timestamp := time,
             vehicleOwner := sender }]
        allowedThis := s.allowedThis ++
          [env.fromExternal encryptedSpeed speedProof,
           env.fromExternal encryptedLocationX locationXProof,
           env.fromExternal encryptedLocationY locationYProof]
        publiclyDecryptable := s.publiclyDecryptable ++
          [env.fromExternal encryptedSpeed speedProof,
           env.fromExternal encryptedLocationX locationXProof,
           env.fromExternal encryptedLocationY locationYProof]
        events := s.events ++ [.TrafficRecordAdded s.recordCount sender] })

/-- `createAggregatedData`: requires, in source order, a valid
ciphertext, `startTime < endTime`, `price > 0`; then stores the
dataset with `isSold = false`, grants `allowThis` and public
decryptability to the handle, emits
`AggregatedDataCreated(aggregatedCount, msg.sender)` and increments
`aggregatedCount`. -/
def createAggregatedData (env : FHEEnv) (s : MarketState)
    (encryptedHeatmapValue heatmapProof startTime endTime price : Nat)
    (sender : Nat) : Except MarketErr (Nat × MarketState) :=
  if env.isInitialized (env.fromExternal encryptedHeatmapValue heatmapProof) = false then
    .error .InvalidCiphertext
  else if ¬ startTime < endTime then .error .InvalidTimeRange
  else if ¬ price > 0 then .error .InvalidPrice
  else
    .ok (s.aggregatedCount,
      { s with
        aggregatedData := s.aggregatedData ++
          [{ encryptedHeatmapValue := env.fromExternal encryptedHeatmapValue heatmapProof,
             startTime := startTime,
             endTime := endTime, price := price, owner := sender,
             isSold := false }]
        allowedThis := s.allowedThis ++
          [env.fromExternal encryptedHeatmapValue heatmapProof]
        publiclyDecryptable := s.publiclyDecryptable ++
          [env.fromExternal encryptedHeatmapValue heatmapProof]
        events := s.events ++ [.AggregatedDataCreated s.aggregatedCount sender] })

/-- `purchaseData(dataId)` called with `msg.value = msgValue` and
`msg.sender = buyer`: requires, in source order, `dataId <
aggregatedCount`, `!isSold`, `msg.value >= price`; then credits
`withdrawals[owner] += msg.value`, sets `isSold = true` and emits
`DataSold(dataId, msg.sender)`. -/
def purchaseData (s : MarketState) (dataId msgValue buyer : Nat) :
    Except MarketErr MarketState :=
  if h : dataId < s.aggregatedData.length then
    if s.aggregatedData[dataId].isSold then .error .AlreadySold
    else if msgValue < s.aggregatedData[dataId].price then
      .error .InsufficientPayment
    else .ok
      { s with
        withdrawals := fun a =>
          if a = s.aggregatedData[dataId].owner then
            s.withdrawals a + msgValue
          else s.withdrawals a
        aggregatedData := s.aggregatedData.set dataId
          ({ s.aggregatedData[dataId] with isSold := true })
        events := s.events ++ [.DataSold dataId buyer] }
  else .error .NotFound

/-- `withdraw()` called by `caller`: requires
`withdrawals[msg.sender] > 0`; zeroes the balance, then transfers
`amount` out (the transferred amount is returned) and emits
`Withdrawal(msg.sender, amount)`. -/
def withdraw (s : MarketState) (caller : Nat) :
    Except MarketErr (Nat × MarketState) :=
  if s.withdrawals caller = 0 then .error .NoFunds
  else .ok (s.withdrawals caller,
    { s with
      withdrawals := fun a => if a = caller then 0 else s.withdrawals a
      events := s.events ++ [.Withdrawal caller (s.withdrawals caller)] })

/-- `getTrafficRecord(recordId)`: requires `recordId < recordCount`. -/
def getTrafficRecord (s : MarketState) (recordId : Nat) :
    Except MarketErr TrafficRecord :=
  match s.trafficRecords[recordId]? with
  | some r => .ok r
  | none => .error .NotFound

/-- `getAggregatedData(dataId)`: requires `dataId < aggregatedCount`. -/
def getAggregatedData (s : MarketState) (dataId : Nat) :
    Except MarketErr AggregatedData :=
  match s.aggregatedData[dataId]? with
  | some d => .ok d
  | none => .error .NotFound

/-! ### Transaction traces

To state "forever" properties (a sold flag never resets) we close the
contract's external interface into a step relation: one constructor
per state-mutating entry point, with arbitrary arguments.  A reverted
call leaves the state unchanged, as on the EVM. -/

/-- One external state-mutating call to the contract. -/
inductive Op where
  | addRecord (sp spP lx lxP ly lyP sender time : Nat)
  | createAgg (hm hmP startT endT price sender : Nat)
  | purchase (dataId msgValue buyer : Nat)
  | withdrawOp (sender : Nat)
deriving Repr, DecidableEq

/-- Execute one call; a revert keeps the pre-state. -/
def step (env : FHEEnv) (s : MarketState) : Op → MarketState
  | .addRecord sp spP lx lxP ly lyP sender time =>
    match addTrafficRecord env s sp spP lx lxP ly lyP sender time with
    | .ok (_, s') => s'
    | .error _ => s
  | .createAgg hm hmP startT endT price sender =>
    match createAggregatedData env s hm hmP startT endT price sender with
    | .ok (_, s') => s'
    | .error _ => s
  | .purchase dataId msgValue buyer =>
    match purchaseData s dataId msgValue buyer with
    | .ok s' => s'
    | .error _ => s
  | .withdrawOp sender =>
    match withdraw s sender with
    | .ok (_, s') => s'
    | .error _ => s

/-- Execute a sequence of calls. -/
def run (env : FHEEnv) (s : MarketState) (ops : List Op) : MarketState :=
  ops.foldl (step env) s

/-- The sold flag of dataset `dataId` (false when out of bounds). -/
def soldAt (s : MarketState) (dataId : Nat) : Bool :=
  match s.aggregatedData[dataId]? with
  | some d => d.isSold
  | none => false

/-- Number of `DataSold` events for `dataId` in an event log. -/
def countSold (dataId : Nat) (evs : List Event) : Nat :=
  (evs.filter (fun e =>
    match e with
    | .DataSold d _ => d = dataId
    | _ => false)).length

end TrafficZ

namespace DecProt

/-!
### The decryption-verification protocol

The caller-side flow is `decryptData` in src/frontend/web/src/App.tsx:
it reads the target's business data, short-circuits when
`isVerified` is already set (returning the stored `decryptedValue`
without entering the handshake), and otherwise fetches the encrypted
value handle, obtains clear values plus a decryption proof from the
relayer and submits them to the contract's `verifyDecryption` entry
point.  The contract the frontend talks to (`getBusinessData`,
`getEncryptedValue`, `verifyDecryption`) is not under src/ — only its
caller is — so the ledger-side commit is modelled from the spec
(§4.4). -/

/-- One verification target as the frontend reads it
(`getBusinessData`): a stored ciphertext handle, the verified flag and
the committed plaintext (`decryptedValue`, meaningful once
`isVerified`).  `isVerified = true` is "provenPlaintext committed". -/
structure BusinessData where
  encryptedValue : Nat
  isVerified : Bool
  decryptedValue : Nat
deriving Repr, DecidableEq

/-- Ledger state seen by the protocol: the marketplace contract state
plus the dense table of verification targets. -/
structure LedgerState where
  market : TrafficZ.MarketState
  targets : List BusinessData

/-- Protocol errors (spec §4.4 / §7). -/
inductive DecErr where
  | AlreadyProven
  | AccessDenied
  | ProofInvalid
  | NotFound
deriving Repr, DecidableEq

/-- Result of the ledger-side commit. -/
inductive CommitResult where
  | committed (value : Nat)
  | alreadyProven (value : Nat)
  | failed (e : DecErr)
deriving Repr, DecidableEq

/-- Modelled from the spec: the ledger-side commit entry point
(`verifyDecryption` of the contract the frontend calls, absent from
src/).  Per §4.4, a target that already has a committed plaintext
short-circuits idempotently with the stored value; otherwise the
payload's proof is cryptographically verified against the ciphertext
actually stored on the ledger (`verifier`, an external collaborator):
success writes the plaintext exactly once and transitions to
`Committed`, failure transitions to `Failed` with `ProofInvalid` and
leaves the target unchanged. -/
def verifyDecryption (verifier : Nat → Nat → Nat → Bool)
    (s : LedgerState) (targetId clearValue proof : Nat) :
    LedgerState × CommitResult :=
  match s.targets[targetId]? with
  | none => (s, .failed .NotFound)
  | some b =>
    if b.isVerified then (s, .alreadyProven b.decryptedValue)
    else if verifier b.encryptedValue clearValue proof then
      ({ s with targets := (s.targets.set targetId
          { b with isVerified := true, decryptedValue := clearValue }) },
       .committed clearValue)
    else (s, .failed .ProofInvalid)

/-- Result of a request (phase one). -/
inductive RequestResult where
  | pending (handle : Nat)
  | alreadyProven (value : Nat)
  | failed (e : DecErr)
deriving Repr, DecidableEq

/-- Modelled from the spec: phase one of the handshake
(`requestDecryption`, §4.4).  Fails fast with `AlreadyProven` when the
target already has a committed plaintext, returning the stored value;
requires the requested ciphertext to be publicly decryptable or
accessible to the caller (`canAccess`), else `AccessDenied`; otherwise
the handle is handed to the external decryption service and the
attempt is `Requested`. -/
def requestDecryption (canAccess : Nat → Bool) (s : LedgerState)
    (targetId : Nat) : RequestResult :=
  match s.targets[targetId]? with
  | none => .failed .NotFound
  | some b =>
    if b.isVerified then .alreadyProven b.decryptedValue
    else if canAccess b.encryptedValue then .pending b.encryptedValue
    else .failed .AccessDenied

/-- Outcome of the frontend's `decryptData`. -/
inductive DecOutcome where
  | storedValue (v : Nat)
  | decrypted (v : Nat)
  | failure
deriving Repr, DecidableEq

/-- `decryptData(businessId)` from App.tsx.  `svc` is the external
decryption service: given the encrypted value handle it returns the
clear values payload and the decryption proof, both then submitted to
`verifyDecryption` — the payload is never trusted without that check.
The returned `Bool` records whether the handshake with the service and
the contract write path was entered at all (it is not when the target
is already verified: the function returns the stored value first). -/
def decryptData (verifier : Nat → Nat → Nat → Bool)
    (svc : Nat → Nat × Nat) (s : LedgerState) (businessId : Nat) :
    LedgerState × DecOutcome × Bool :=
  match s.targets[businessId]? with
  | none => (s, .failure, false)
  | some b =>
    if b.isVerified then (s, .storedValue b.decryptedValue, false)
    else
      let handle := b.encryptedValue
      let payload := svc handle
      match verifyDecryption verifier s businessId payload.1 payload.2 with
      | (s', .committed v) => (s', .decrypted v, true)
      | (s', .alreadyProven v) => (s', .storedValue v, true)
      | (s', .failed _) => (s', .failure, true)

end DecProt

namespace TrafficZ

/-- Spec predicate used for the "at most one purchase" invariant:
from state `s` on, under every sequence of contract calls, dataset `d`
keeps its sold flag, the event log gains no further `DataSold` event
for `d` (so no further purchase of `d` ever succeeds and no further
escrow credit is ever attributable to `d`), and every direct purchase
attempt for `d` reverts with `AlreadySold`. -/
def SoldForever (env : FHEEnv) (s : MarketState) (d : Nat) : Prop :=
  ∀ ops : List Op,
    soldAt (run env s ops) d = true ∧
    countSold d (run env s ops).events = countSold d s.events ∧
    ∀ v b, purchaseData (run env s ops) d v b =
      Except.error MarketErr.AlreadySold

/-! ### Concrete test fixtures (used by witnesses and counterexamples) -/

/-- A concrete FHE environment: a proof value of 1 verifies, anything
else yields the uninitialized handle 0. -/
def envT : FHEEnv :=
  { fromExternal := fun ct proof => if proof = 1 then ct + 1 else 0
    isInitialized := fun h => h ≠ 0 }

/-- The deployment state: empty tables, zero balances. -/
def st0 : MarketState :=
  { trafficRecords := []
    aggregatedData := []
    withdrawals := fun _ => 0
    allowedThis := []
    publiclyDecryptable := []
    events := [] }

/-- An unsold dataset priced at 10, owned by address 3. -/
def dsA : AggregatedData :=
  { encryptedHeatmapValue := 8, startTime := 100, endTime := 200,
    price := 10, owner := 3, isSold := false }

/-- A state holding the single unsold dataset `dsA` (id 0). -/
def st1 : MarketState := { st0 with aggregatedData := [dsA] }

/-- `dsA` after its sale. -/
def dsSold : AggregatedData := { dsA with isSold := true }

/-- A state holding the single already-sold dataset `dsSold` (id 0). -/
def stSold : MarketState := { st0 with aggregatedData := [dsSold] }

/-- A state where address 3 has an escrow balance of 25. -/
def stW : MarketState :=
  { st0 with withdrawals := fun a => if a = 3 then 25 else 0 }

/-- `st1` after buyer 9 purchases dataset 0 for 15. -/
def st1After : MarketState :=
  { st1 with
    withdrawals := fun a =>
      if a = dsA.owner then st1.withdrawals a + 15 else st1.withdrawals a
    aggregatedData := st1.aggregatedData.set 0 ({ dsA with isSold := true })
    events := st1.events ++ [Event.DataSold 0 9] }

/-- Spec predicate for the frame of a successful purchase: the only
state changed is the one dataset's sold flag and the owner's escrow
balance; the record table, all other datasets, the purchased dataset's
other fields, all other balances, both counters and both access lists
are untouched. -/
def PurchaseFrame (s s₁ : MarketState) (d v : Nat) : Prop :=
  ∃ ds, s.aggregatedData[d]? = some ds ∧ ds.isSold = false ∧
    s₁.trafficRecords = s.trafficRecords ∧
    s₁.aggregatedData.length = s.aggregatedData.length ∧
    s₁.aggregatedData[d]? = some ({ ds with isSold := true }) ∧
    (∀ d2, d2 ≠ d → s₁.aggregatedData[d2]? = s.aggregatedData[d2]?) ∧
    s₁.withdrawals ds.owner = s.withdrawals ds.owner + v ∧
    (∀ a, a ≠ ds.owner → s₁.withdrawals a = s.withdrawals a) ∧
    s₁.allowedThis = s.allowedThis ∧
    s₁.publiclyDecryptable = s.publiclyDecryptable ∧
    getTotalRecords s₁ = getTotalRecords s ∧
    getTotalAggregatedData s₁ = getTotalAggregatedData s

end TrafficZ

namespace DecProt

/-! ### Concrete protocol fixtures (used by witnesses) -/

/-- A concrete decryption-proof verifier: the proof is accepted when
clear value plus proof equals the ciphertext handle. -/
def verT : Nat → Nat → Nat → Bool :=
  fun ct clear proof => clear + proof = ct

/-- A concrete decryption service: answers clear value `h - 1` with
proof 1 for handle `h` (accepted by `verT`). -/
def svcT : Nat → Nat × Nat :=
  fun h => (h - 1, 1)

/-- A concrete broken decryption service: its proof never verifies
under `verT`. -/
def svcBad : Nat → Nat × Nat :=
  fun h => (h, h + 1)

/-- A caller with access to every handle. -/
def accT : Nat → Bool := fun _ => true

/-- An already-verified target: plaintext 42 committed. -/
def bizV : BusinessData :=
  { encryptedValue := 50, isVerified := true, decryptedValue := 42 }

/-- A not-yet-verified target with ciphertext handle 50. -/
def bizU : BusinessData :=
  { encryptedValue := 50, isVerified := false, decryptedValue := 0 }

/-- Ledger holding the single verified target `bizV`. -/
def lstV : LedgerState := { market := TrafficZ.st1, targets := [bizV] }

/-- Ledger holding the single unverified target `bizU`. -/
def lstU : LedgerState := { market := TrafficZ.st1, targets := [bizU] }

end DecProt

namespace TrafficZ

/-! ### Helper lemmas -/

/-- A sold (in-bounds) dataset makes every purchase attempt revert
with `AlreadySold`. -/
theorem purchaseData_of_sold {s : MarketState} {d : Nat}
    (h : soldAt s d = true) (v b : Nat) :
    purchaseData s d v b = Except.error MarketErr.AlreadySold := by
  unfold soldAt at h
  unfold purchaseData
  cases hq : s.aggregatedData[d]? with
  | none => rw [hq] at h; simp at h
  | some ds =>
    rw [hq] at h
    have h' : ds.isSold = true := h
    have hlt : d < s.aggregatedData.length := (List.getElem?_eq_some.mp hq).1
    have hds : s.aggregatedData[d] = ds := by
      have h2 := List.getElem?_eq_getElem hlt
      rw [hq] at h2
      exact (Option.some.inj h2).symm
    simp only [dif_pos hlt, hds, h', if_true]

/-- Successful purchase, with the explicit posterior state. -/
theorem purchaseData_ok {s : MarketState} {d : Nat} {ds : AggregatedData}
    (hds : s.aggregatedData[d]? = some ds) (hns : ds.isSold = false)
    (v b : Nat) (hv : ds.price ≤ v) :
    purchaseData s d v b = Except.ok
      { s with
        withdrawals := fun a =>
          if a = ds.owner then s.withdrawals a + v else s.withdrawals a
        aggregatedData := s.aggregatedData.set d ({ ds with isSold := true })
        events := s.events ++ [Event.DataSold d b] } := by
  have hlt : d < s.aggregatedData.length := (List.getElem?_eq_some.mp hds).1
  have hget : s.aggregatedData[d] = ds := by
    have h2 := List.getElem?_eq_getElem hlt
    rw [hds] at h2
    exact (Option.some.inj h2).symm
  have h1 : ¬ (ds.isSold = true) := by simp [hns]
  have h2 : ¬ (v < ds.price) := Nat.not_lt.mpr hv
  unfold purchaseData
  simp only [dif_pos hlt, hget, if_neg h1, if_neg h2]

end TrafficZ

namespace TrafficZ

/-- `countSold` ignores an appended event that is not `DataSold` for
the same dataset id. -/
theorem countSold_append_other {d : Nat} (evs : List Event) {e : Event}
    (h : ∀ b, e ≠ Event.DataSold d b) :
    countSold d (evs ++ [e]) = countSold d evs := by
  unfold countSold
  rw [List.filter_append]
  cases e with
  | DataSold d2 b2 =>
    have hne : d2 ≠ d := by
      intro hdd
      exact h b2 (by rw [hdd])
    simp [hne]
  | TrafficRecordAdded r o => simp
  | AggregatedDataCreated r o => simp
  | Withdrawal p a => simp

/-- `soldAt` only looks at the `aggregatedData` table. -/
theorem soldAt_congr {s s' : MarketState} (d : Nat)
    (h : s'.aggregatedData = s.aggregatedData) : soldAt s' d = soldAt s d := by
  unfold soldAt
  rw [h]

/-- Inversion: a successful `addTrafficRecord` leaves the dataset
table untouched and appends exactly one (non-`DataSold`) event. -/
theorem addTrafficRecord_ok_inv {env : FHEEnv} {s : MarketState}
    {sp spP lx lxP ly lyP sender time r : Nat} {s' : MarketState}
    (h : addTrafficRecord env s sp spP lx lxP ly lyP sender time =
      Except.ok (r, s')) :
    s'.aggregatedData = s.aggregatedData ∧
    s'.withdrawals = s.withdrawals ∧
    s'.events = s.events ++ [Event.TrafficRecordAdded s.recordCount sender] := by
  unfold addTrafficRecord at h
  split at h
  · simp at h
  · split at h
    · simp at h
    · split at h
      · simp at h
      · simp only [Except.ok.injEq, Prod.mk.injEq] at h
        rw [← h.2]
        exact ⟨rfl, rfl, rfl⟩

/-- Inversion: a successful `createAggregatedData` appends one unsold
dataset at the end of the table and one (non-`DataSold`) event. -/
theorem createAggregatedData_ok_inv {env : FHEEnv} {s : MarketState}
    {hm hmP startT endT price sender r : Nat} {s' : MarketState}
    (h : createAggregatedData env s hm hmP startT endT price sender =
      Except.ok (r, s')) :
    s'.aggregatedData = s.aggregatedData ++
      [{ encryptedHeatmapValue := env.fromExternal hm hmP,
         startTime := startT, endTime := endT, price := price,
         owner := sender, isSold := false }] ∧
    s'.withdrawals = s.withdrawals ∧
    s'.events = s.events ++
      [Event.AggregatedDataCreated s.aggregatedCount sender] := by
  unfold createAggregatedData at h
  split at h
  · simp at h
  · split at h
    · simp at h
    · split at h
      · simp at h
      · simp only [Except.ok.injEq, Prod.mk.injEq] at h
        rw [← h.2]
        exact ⟨rfl, rfl, rfl⟩

/-- Inversion: a successful `purchaseData` happened on an in-bounds,
unsold, sufficiently paid dataset, and the posterior state is the
source's update. -/
theorem purchaseData_ok_inv {s : MarketState} {d v b : Nat}
    {s2 : MarketState} (h : purchaseData s d v b = Except.ok s2) :
    ∃ hlt : d < s.aggregatedData.length,
      s.aggregatedData[d].isSold = false ∧
      s.aggregatedData[d].price ≤ v ∧
      s2 = { s with
        withdrawals := fun a =>
          if a = s.aggregatedData[d].owner then s.withdrawals a + v
          else s.withdrawals a
        aggregatedData := s.aggregatedData.set d
          ({ s.aggregatedData[d] with isSold := true })
        events := s.events ++ [Event.DataSold d b] } := by
  unfold purchaseData at h
  split at h
  case isTrue hlt =>
    split at h
    · simp at h
    case isFalse hns =>
      split at h
      case isTrue hv => simp at h
      case isFalse hv =>
        simp only [Except.ok.injEq] at h
        exact ⟨hlt, Bool.not_eq_true _ ▸ Bool.of_not_eq_true hns,
          Nat.not_lt.mp hv, h.symm⟩
  case isFalse hlt => simp at h

/-- Inversion: a successful `withdraw` leaves the dataset table
untouched and appends one (non-`DataSold`) event. -/
theorem withdraw_ok_inv {s : MarketState} {caller r : Nat}
    {s' : MarketState}
    (h : withdraw s caller = Except.ok (r, s')) :
    r = s.withdrawals caller ∧
    s'.aggregatedData = s.aggregatedData ∧
    s'.events = s.events ++ [Event.Withdrawal caller (s.withdrawals caller)] := by
  unfold withdraw at h
  split at h
  · simp at h
  · simp only [Except.ok.injEq, Prod.mk.injEq] at h
    rw [← h.2]
    exact ⟨h.1.symm, rfl, rfl⟩

/-- One contract call preserves the sold flag of a sold dataset and
adds no `DataSold` event for it. -/
theorem step_preserves_sold (env : FHEEnv) (s : MarketState) (op : Op)
    (d : Nat) (h : soldAt s d = true) :
    soldAt (step env s op) d = true ∧
    countSold d (step env s op).events = countSold d s.events := by
  have hlt : d < s.aggregatedData.length := by
    unfold soldAt at h
    cases hq : s.aggregatedData[d]? with
    | none => rw [hq] at h; simp at h
    | some ds => exact (List.getElem?_eq_some.mp hq).1
  cases op with
  | addRecord sp spP lx lxP ly lyP sender time =>
    cases hres : addTrafficRecord env s sp spP lx lxP ly lyP sender time with
    | error e => simp only [step, hres]; exact ⟨h, trivial⟩
    | ok p =>
      obtain ⟨r, s'⟩ := p
      obtain ⟨ha, _, he⟩ := addTrafficRecord_ok_inv hres
      simp only [step, hres]
      refine ⟨?_, ?_⟩
      · rw [soldAt_congr d ha]; exact h
      · rw [he]
        exact countSold_append_other s.events (fun b hb => by cases hb)
  | createAgg hm hmP startT endT price sender =>
    cases hres : createAggregatedData env s hm hmP startT endT price sender with
    | error e => simp only [step, hres]; exact ⟨h, trivial⟩
    | ok p =>
      obtain ⟨r, s'⟩ := p
      obtain ⟨ha, _, he⟩ := createAggregatedData_ok_inv hres
      simp only [step, hres]
      refine ⟨?_, ?_⟩
      · unfold soldAt at h ⊢
        rw [ha, List.getElem?_append_left hlt]
        exact h
      · rw [he]
        exact countSold_append_other s.events (fun b hb => by cases hb)
  | purchase d2 v b =>
    by_cases hd : d2 = d
    · subst hd
      simp only [step, purchaseData_of_sold h v b]
      exact ⟨h, trivial⟩
    · cases hres : purchaseData s d2 v b with
      | error e => simp only [step, hres]; exact ⟨h, trivial⟩
      | ok s2 =>
        obtain ⟨hlt2, _, _, hs2⟩ := purchaseData_ok_inv hres
        simp only [step, hres]
        refine ⟨?_, ?_⟩
        · unfold soldAt at h ⊢
          rw [hs2]
          simp only
          rw [List.getElem?_set_ne hd]
          exact h
        · rw [hs2]
          exact countSold_append_other s.events
            (fun b2 hb => by cases hb; exact hd rfl)
  | withdrawOp sender =>
    cases hres : withdraw s sender with
    | error e => simp only [step, hres]; exact ⟨h, trivial⟩
    | ok p =>
      obtain ⟨r, s'⟩ := p
      obtain ⟨_, ha, he⟩ := withdraw_ok_inv hres
      simp only [step, hres]
      refine ⟨?_, ?_⟩
      · rw [soldAt_congr d ha]; exact h
      · rw [he]
        exact countSold_append_other s.events (fun b hb => by cases hb)

/-- Running any sequence of contract calls preserves the sold flag of
a sold dataset and adds no `DataSold` event for it. -/
theorem run_preserves_sold (env : FHEEnv) (ops : List Op) :
    ∀ (s : MarketState) (d : Nat), soldAt s d = true →
      soldAt (run env s ops) d = true ∧
      countSold d (run env s ops).events = countSold d s.events := by
  induction ops with
  | nil => intro s d h; exact ⟨h, rfl⟩
  | cons op rest ih =>
    intro s d h
    have h1 := step_preserves_sold env s op d h
    have h2 := ih (step env s op) d h1.1
    have hr : run env s (op :: rest) = run env (step env s op) rest := rfl
    rw [hr]
    exact ⟨h2.1, by rw [h2.2, h1.2]⟩

/-- A sold dataset is sold forever. -/
theorem soldForever_of_sold (env : FHEEnv) (s : MarketState) (d : Nat)
    (h : soldAt s d = true) : SoldForever env s d := by
  intro ops
  have h1 := run_preserves_sold env ops s d h
  exact ⟨h1.1, h1.2, fun v b => purchaseData_of_sold h1.1 v b⟩

end TrafficZ

namespace TrafficZ

/-- If a state's table is a `set` of a sold entry at an in-bounds
index, that index reads as sold. -/
theorem soldAt_set_true {s' : MarketState} {l : List AggregatedData}
    {d : Nat} {x : AggregatedData} (ha : s'.aggregatedData = l.set d x)
    (hx : x.isSold = true) (hlt : d < l.length) : soldAt s' d = true := by
  unfold soldAt
  rw [ha, List.getElem?_set_eq_of_lt x hlt]
  exact hx

/-- C1: for every dataset, purchase succeeds at most once.  A sold
dataset is `SoldForever`: under any continuation its sold flag stays
true, no further `DataSold` event for it is ever emitted (so no escrow
credit is ever again attributable to it), and every direct purchase
attempt reverts with `AlreadySold`.  An unsold dataset's first
successful purchase credits the owner's escrow by exactly the payment
and puts the dataset in the `SoldForever` state. -/
theorem purchase_succeeds_at_most_once (env : FHEEnv) (s : MarketState)
    (d : Nat) (ds : AggregatedData)
    (hds : s.aggregatedData[d]? = some ds) :
    (ds.isSold = true → SoldForever env s d) ∧
    (ds.isSold = false → ∀ v b, ds.price ≤ v →
      ∃ s₁, purchaseData s d v b = Except.ok s₁ ∧
        s₁.withdrawals ds.owner = s.withdrawals ds.owner + v ∧
        SoldForever env s₁ d) := by
  have hlt : d < s.aggregatedData.length := (List.getElem?_eq_some.mp hds).1
  constructor
  · intro hsold
    apply soldForever_of_sold
    unfold soldAt
    rw [hds]
    exact hsold
  · intro hns v b hv
    refine ⟨_, purchaseData_ok hds hns v b hv, ?_, ?_⟩
    · simp
    · exact soldForever_of_sold env _ d (soldAt_set_true rfl rfl hlt)

/-- Witness for C1: a concrete sold dataset is `SoldForever`; a
concrete unsold dataset is purchased once for 15 ≥ price = 10, the
owner's escrow rises by exactly 15, and it is `SoldForever` after. -/
theorem purchase_succeeds_at_most_once_witness :
    stSold.aggregatedData[0]? = some dsSold ∧ dsSold.isSold = true ∧
    SoldForever envT stSold 0 ∧
    st1.aggregatedData[0]? = some dsA ∧ dsA.isSold = false ∧
    dsA.price ≤ 15 ∧
    ∃ s₁, purchaseData st1 0 15 9 = Except.ok s₁ ∧
      s₁.withdrawals dsA.owner = st1.withdrawals dsA.owner + 15 ∧
      SoldForever envT s₁ 0 :=
  ⟨by decide, by decide,
   (purchase_succeeds_at_most_once envT stSold 0 dsSold (by decide)).1
     (by decide),
   by decide, by decide, by decide,
   (purchase_succeeds_at_most_once envT st1 0 dsA (by decide)).2
     (by decide) 15 9 (by decide)⟩

/-- C2: `purchaseData` reverts with `NotFound` on an out-of-bounds id,
with `AlreadySold` on a sold dataset, and with `InsufficientPayment`
on an unsold dataset when the payment is below the price; a reverted
call leaves the state unchanged; a successful call credits the owner's
escrow with the full payment (overpayment included) and sets the sold
flag. -/
theorem purchaseData_case_analysis (env : FHEEnv) (s : MarketState)
    (d v b : Nat) :
    (s.aggregatedData[d]? = none →
      purchaseData s d v b = Except.error MarketErr.NotFound) ∧
    (∀ ds, s.aggregatedData[d]? = some ds →
      (ds.isSold = true →
        purchaseData s d v b = Except.error MarketErr.AlreadySold) ∧
      (ds.isSold = false → v < ds.price →
        purchaseData s d v b = Except.error MarketErr.InsufficientPayment) ∧
      (ds.isSold = false → ds.price ≤ v →
        ∃ s₁, purchaseData s d v b = Except.ok s₁ ∧
          s₁.withdrawals ds.owner = s.withdrawals ds.owner + v ∧
          soldAt s₁ d = true)) ∧
    (∀ e, purchaseData s d v b = Except.error e →
      step env s (Op.purchase d v b) = s) := by
  refine ⟨?_, ?_, ?_⟩
  · intro hnone
    have hge : s.aggregatedData.length ≤ d := by
      by_contra hcon
      rw [List.getElem?_eq_getElem (Nat.lt_of_not_le hcon)] at hnone
      cases hnone
    unfold purchaseData
    rw [dif_neg (Nat.not_lt.mpr hge)]
  · intro ds hds
    have hlt : d < s.aggregatedData.length := (List.getElem?_eq_some.mp hds).1
    have hget : s.aggregatedData[d] = ds := by
      have h2 := List.getElem?_eq_getElem hlt
      rw [hds] at h2
      exact (Option.some.inj h2).symm
    refine ⟨?_, ?_, ?_⟩
    · intro hsold
      apply purchaseData_of_sold
      unfold soldAt
      rw [hds]
      exact hsold
    · intro hns hv
      unfold purchaseData
      rw [dif_pos hlt, hget, if_neg (by simp [hns]), if_pos hv]
    · intro hns hv
      refine ⟨_, purchaseData_ok hds hns v b hv, by simp,
        soldAt_set_true rfl rfl hlt⟩
  · intro e herr
    simp only [step, herr]

/-- Witness for C2: the three revert cases, the unchanged state of a
reverted call, and a successful overpaid purchase, all at concrete
inputs. -/
theorem purchaseData_case_analysis_witness :
    purchaseData st1 5 20 9 = Except.error MarketErr.NotFound ∧
    purchaseData stSold 0 20 9 = Except.error MarketErr.AlreadySold ∧
    purchaseData st1 0 5 9 = Except.error MarketErr.InsufficientPayment ∧
    (∃ s₁, purchaseData st1 0 15 9 = Except.ok s₁ ∧
      s₁.withdrawals dsA.owner = st1.withdrawals dsA.owner + 15 ∧
      soldAt s₁ 0 = true) ∧
    step envT st1 (Op.purchase 0 5 9) = st1 :=
  ⟨(purchaseData_case_analysis envT st1 5 20 9).1 (by decide),
   ((purchaseData_case_analysis envT stSold 0 20 9).2.1 dsSold
     (by decide)).1 (by decide),
   ((purchaseData_case_analysis envT st1 0 5 9).2.1 dsA
     (by decide)).2.1 (by decide) (by decide),
   ((purchaseData_case_analysis envT st1 0 15 9).2.1 dsA
     (by decide)).2.2 (by decide) (by decide),
   (purchaseData_case_analysis envT st1 0 5 9).2.2
     MarketErr.InsufficientPayment
     (((purchaseData_case_analysis envT st1 0 5 9).2.1 dsA
       (by decide)).2.1 (by decide) (by decide))⟩

/-- C9: no distinctness condition between buyer and owner — the owner
of an unsold dataset may purchase it by paying at least the price,
which marks it sold and credits the owner's own escrow with the full
payment. -/
theorem owner_can_purchase_own_dataset (s : MarketState) (d v : Nat)
    (ds : AggregatedData) (hds : s.aggregatedData[d]? = some ds)
    (hns : ds.isSold = false) (hv : ds.price ≤ v) :
    ∃ s₁, purchaseData s d v ds.owner = Except.ok s₁ ∧
      soldAt s₁ d = true ∧
      s₁.withdrawals ds.owner = s.withdrawals ds.owner + v := by
  have hlt : d < s.aggregatedData.length := (List.getElem?_eq_some.mp hds).1
  exact ⟨_, purchaseData_ok hds hns v ds.owner hv,
    soldAt_set_true rfl rfl hlt, by simp⟩

/-- Witness for C9: owner 3 buys their own dataset 0 at its exact
price. -/
theorem owner_can_purchase_own_dataset_witness :
    st1.aggregatedData[0]? = some dsA ∧ dsA.isSold = false ∧
    dsA.price ≤ 10 ∧
    ∃ s₁, purchaseData st1 0 10 dsA.owner = Except.ok s₁ ∧
      soldAt s₁ 0 = true ∧
      s₁.withdrawals dsA.owner = st1.withdrawals dsA.owner + 10 :=
  ⟨by decide, by decide, by decide,
   owner_can_purchase_own_dataset st1 0 10 dsA (by decide) (by decide)
     (by decide)⟩

/-- C10: `isAvailable` is a pure constant — it returns `true` in every
state and its value is independent of the state, so it conveys no
information about the stores or balances. -/
theorem isAvailable_pure_constant :
    ∀ s s' : MarketState,
      isAvailable s = true ∧ isAvailable s = isAvailable s' :=
  fun _ _ => ⟨rfl, rfl⟩

end TrafficZ

namespace TrafficZ

/-- C3 counterexample: for a principal with zero escrow balance (here
address 3 in the deployment state), a sequence of two `withdraw` calls
with no intervening purchase yields two `NoFunds` failures and no
success — not "exactly one success and one NoFunds failure" as the
claim states for every principal. -/
theorem withdraw_twice_zero_balance_cex :
    st0.withdrawals 3 = 0 ∧
    withdraw st0 3 = Except.error MarketErr.NoFunds ∧
    withdraw (step envT st0 (Op.withdrawOp 3)) 3 =
      Except.error MarketErr.NoFunds :=
  ⟨rfl, rfl, rfl⟩

/-- C3 (amended): `withdraw` fails with `NoFunds` iff the caller's
escrow balance is zero; on success the balance is zeroed (before the
transfer, whose amount is the old balance), so for every principal
whose balance is nonzero, two withdrawals with no intervening purchase
yield exactly one success followed by one `NoFunds` failure. -/
theorem withdraw_spec_amended (s : MarketState) (caller : Nat) :
    (s.withdrawals caller = 0 ↔
      withdraw s caller = Except.error MarketErr.NoFunds) ∧
    (s.withdrawals caller ≠ 0 →
      ∃ s₁, withdraw s caller = Except.ok (s.withdrawals caller, s₁) ∧
        s₁.withdrawals caller = 0 ∧
        withdraw s₁ caller = Except.error MarketErr.NoFunds) := by
  constructor
  · constructor
    · intro h0
      unfold withdraw
      rw [if_pos h0]
    · intro herr
      by_contra hne
      unfold withdraw at herr
      rw [if_neg hne] at herr
      cases herr
  · intro hne
    refine ⟨{ s with
        withdrawals := fun a => if a = caller then 0 else s.withdrawals a
        events := s.events ++
          [Event.Withdrawal caller (s.withdrawals caller)] },
      ?_, ?_, ?_⟩
    · unfold withdraw
      rw [if_neg hne]
    · simp
    · unfold withdraw
      rw [if_pos (by simp)]

/-- Witness for the amended C3: address 3 holds 25; the first call
succeeds returning 25, the second fails with `NoFunds`. -/
theorem withdraw_spec_amended_witness :
    stW.withdrawals 3 ≠ 0 ∧
    ∃ s₁, withdraw stW 3 = Except.ok (stW.withdrawals 3, s₁) ∧
      s₁.withdrawals 3 = 0 ∧
      withdraw s₁ 3 = Except.error MarketErr.NoFunds :=
  ⟨by decide, (withdraw_spec_amended stW 3).2 (by decide)⟩

/-- Successful `addTrafficRecord`, with the explicit posterior
state. -/
theorem addTrafficRecord_ok_eq {env : FHEEnv} {s : MarketState}
    {sp spP lx lxP ly lyP : Nat} (sender time : Nat)
    (h1 : env.isInitialized (env.fromExternal sp spP) = true)
    (h2 : env.isInitialized (env.fromExternal lx lxP) = true)
    (h3 : env.isInitialized (env.fromExternal ly lyP) = true) :
    addTrafficRecord env s sp spP lx lxP ly lyP sender time =
      Except.ok (s.recordCount,
        { s with
          trafficRecords := s.trafficRecords ++
            [{ encryptedSpeed := env.fromExternal sp spP,
               encryptedLocationX := env.fromExternal lx lxP,
               encryptedLocationY := env.fromExternal ly lyP,
               timestamp := time,
               vehicleOwner := sender }]
          allowedThis := s.allowedThis ++
            [env.fromExternal sp spP, env.fromExternal lx lxP,
             env.fromExternal ly lyP]
          publiclyDecryptable := s.publiclyDecryptable ++
            [env.fromExternal sp spP, env.fromExternal lx lxP,
             env.fromExternal ly lyP]
          events := s.events ++
            [Event.TrafficRecordAdded s.recordCount sender] }) := by
  unfold addTrafficRecord
  rw [if_neg (by simp [h1]), if_neg (by simp [h2]), if_neg (by simp [h3])]

/-- C4: a valid submission returns a record id equal to the pre-call
`getTotalRecords` and increments `getTotalRecords` by exactly one; if
any of the three ciphertext proof checks fails, the call reverts with
`InvalidCiphertext` and the state — in particular `getTotalRecords`
and the record table — is unchanged (all-or-nothing). -/
theorem addTrafficRecord_spec (env : FHEEnv) (s : MarketState)
    (sp spP lx lxP ly lyP sender time : Nat) :
    (env.isInitialized (env.fromExternal sp spP) = true →
     env.isInitialized (env.fromExternal lx lxP) = true →
     env.isInitialized (env.fromExternal ly lyP) = true →
      ∃ s₁, addTrafficRecord env s sp spP lx lxP ly lyP sender time =
          Except.ok (getTotalRecords s, s₁) ∧
        getTotalRecords s₁ = getTotalRecords s + 1) ∧
    ((env.isInitialized (env.fromExternal sp spP) = false ∨
      env.isInitialized (env.fromExternal lx lxP) = false ∨
      env.isInitialized (env.fromExternal ly lyP) = false) →
      addTrafficRecord env s sp spP lx lxP ly lyP sender time =
        Except.error MarketErr.InvalidCiphertext ∧
      step env s (Op.addRecord sp spP lx lxP ly lyP sender time) = s) := by
  constructor
  · intro h1 h2 h3
    exact ⟨_, addTrafficRecord_ok_eq sender time h1 h2 h3,
      by simp [getTotalRecords, MarketState.recordCount]⟩
  · intro hbad
    have herr : addTrafficRecord env s sp spP lx lxP ly lyP sender time =
        Except.error MarketErr.InvalidCiphertext := by
      unfold addTrafficRecord
      by_cases h1 : env.isInitialized (env.fromExternal sp spP) = false
      · rw [if_pos h1]
      · rw [if_neg h1]
        by_cases h2 : env.isInitialized (env.fromExternal lx lxP) = false
        · rw [if_pos h2]
        · rw [if_neg h2]
          have h3 : env.isInitialized (env.fromExternal ly lyP) = false := by
            rcases hbad with h | h | h
            · exact absurd h h1
            · exact absurd h h2
            · exact h
          rw [if_pos h3]
    exact ⟨herr, by simp only [step, herr]⟩

/-- Witness for C4: a valid submission from the deployment state
returns id 0 and bumps the count to 1; an invalid one (bad proof for
the location-X ciphertext) reverts with `InvalidCiphertext` and leaves
the state unchanged. -/
theorem addTrafficRecord_spec_witness :
    envT.isInitialized (envT.fromExternal 5 1) = true ∧
    envT.isInitialized (envT.fromExternal 6 1) = true ∧
    envT.isInitialized (envT.fromExternal 7 1) = true ∧
    (∃ s₁, addTrafficRecord envT st0 5 1 6 1 7 1 4 99 =
        Except.ok (getTotalRecords st0, s₁) ∧
      getTotalRecords s₁ = getTotalRecords st0 + 1) ∧
    envT.isInitialized (envT.fromExternal 6 0) = false ∧
    (addTrafficRecord envT st0 5 1 6 0 7 1 4 99 =
        Except.error MarketErr.InvalidCiphertext ∧
      step envT st0 (Op.addRecord 5 1 6 0 7 1 4 99) = st0) :=
  ⟨by decide, by decide, by decide,
   (addTrafficRecord_spec envT st0 5 1 6 1 7 1 4 99).1 (by decide)
     (by decide) (by decide),
   by decide,
   (addTrafficRecord_spec envT st0 5 1 6 0 7 1 4 99).2
     (Or.inr (Or.inl (by decide)))⟩

/-- C5 counterexample: with an invalid ciphertext/proof pair and
`startTime = 100 ≥ endTime = 50`, `createAggregatedData` reverts with
`InvalidCiphertext`, not `InvalidTimeRange` — the ciphertext `require`
runs first, so the time-range error is not reported independent of
ciphertext validity. -/
theorem createAggregatedData_timeRange_cex :
    createAggregatedData envT st0 7 0 100 50 10 3 =
      Except.error MarketErr.InvalidCiphertext ∧
    createAggregatedData envT st0 7 0 100 50 10 3 ≠
      Except.error MarketErr.InvalidTimeRange := by
  have h1 : createAggregatedData envT st0 7 0 100 50 10 3 =
      Except.error MarketErr.InvalidCiphertext := rfl
  refine ⟨h1, ?_⟩
  rw [h1]
  simp

/-- C5 (amended): when the ciphertext/proof pair is valid,
`createAggregatedData` reverts with `InvalidTimeRange` whenever
`startTime ≥ endTime`, and with `InvalidPrice` whenever the time range
is valid but `price = 0`; with an invalid pair it reverts with
`InvalidCiphertext` regardless of the other parameters; on every
revert no dataset is created and `getTotalAggregatedData` is
unchanged. -/
theorem createAggregatedData_spec_amended (env : FHEEnv)
    (s : MarketState) (hm hmP startT endT price sender : Nat) :
    (env.isInitialized (env.fromExternal hm hmP) = false →
      createAggregatedData env s hm hmP startT endT price sender =
        Except.error MarketErr.InvalidCiphertext) ∧
    (env.isInitialized (env.fromExternal hm hmP) = true → endT ≤ startT →
      createAggregatedData env s hm hmP startT endT price sender =
        Except.error MarketErr.InvalidTimeRange) ∧
    (env.isInitialized (env.fromExternal hm hmP) = true →
      startT < endT → price = 0 →
      createAggregatedData env s hm hmP startT endT price sender =
        Except.error MarketErr.InvalidPrice) ∧
    (∀ e, createAggregatedData env s hm hmP startT endT price sender =
        Except.error e →
      step env s (Op.createAgg hm hmP startT endT price sender) = s ∧
      getTotalAggregatedData
        (step env s (Op.createAgg hm hmP startT endT price sender)) =
        getTotalAggregatedData s) := by
  refine ⟨?_, ?_, ?_, ?_⟩
  · intro h1
    unfold createAggregatedData
    rw [if_pos h1]
  · intro h1 ht
    unfold createAggregatedData
    rw [if_neg (by simp [h1]), if_pos (Nat.not_lt.mpr ht)]
  · intro h1 ht hp
    unfold createAggregatedData
    rw [if_neg (by simp [h1]), if_neg (by simp [ht]), if_pos (by simp [hp])]
  · intro e herr
    refine ⟨by simp only [step, herr], ?_⟩
    simp only [step, herr]

/-- Witness for the amended C5: all three revert cases and the
unchanged count, at concrete inputs. -/
theorem createAggregatedData_spec_amended_witness :
    envT.isInitialized (envT.fromExternal 7 0) = false ∧
    createAggregatedData envT st0 7 0 100 50 10 3 =
      Except.error MarketErr.InvalidCiphertext ∧
    envT.isInitialized (envT.fromExternal 7 1) = true ∧ 50 ≤ 100 ∧
    createAggregatedData envT st0 7 1 100 50 10 3 =
      Except.error MarketErr.InvalidTimeRange ∧
    createAggregatedData envT st0 7 1 100 200 0 3 =
      Except.error MarketErr.InvalidPrice ∧
    (step envT st0 (Op.createAgg 7 1 100 50 10 3) = st0 ∧
      getTotalAggregatedData
        (step envT st0 (Op.createAgg 7 1 100 50 10 3)) =
        getTotalAggregatedData st0) :=
  ⟨by decide,
   (createAggregatedData_spec_amended envT st0 7 0 100 50 10 3).1
     (by decide),
   by decide, by decide,
   (createAggregatedData_spec_amended envT st0 7 1 100 50 10 3).2.1
     (by decide) (by decide),
   (createAggregatedData_spec_amended envT st0 7 1 100 200 0 3).2.2.1
     (by decide) (by decide) (by decide),
   (createAggregatedData_spec_amended envT st0 7 1 100 50 10 3).2.2.2
     MarketErr.InvalidTimeRange
     ((createAggregatedData_spec_amended envT st0 7 1 100 50 10 3).2.1
       (by decide) (by decide))⟩

/-- C8: the frame of a successful purchase — only the purchased
dataset's sold flag and the owner's escrow balance change; records,
other datasets, the dataset's other fields, other balances, the
counters and the two FHE access-grant lists are untouched, so the
buyer is granted no access they did not already have. -/
theorem purchaseData_frame (s : MarketState) (d v b : Nat)
    (s₁ : MarketState) (h : purchaseData s d v b = Except.ok s₁) :
    PurchaseFrame s s₁ d v := by
  obtain ⟨hlt, hns, hv, hpost⟩ := purchaseData_ok_inv h
  subst hpost
  refine ⟨s.aggregatedData[d], List.getElem?_eq_getElem hlt, hns,
    rfl, ?_, ?_, ?_, ?_, ?_, rfl, rfl, rfl, ?_⟩
  · exact List.length_set s.aggregatedData d _
  · exact List.getElem?_set_eq_of_lt _ hlt
  · intro d2 hne
    exact List.getElem?_set_ne (fun hc => hne hc.symm)
  · simp
  · intro a hne
    simp [hne]
  · simp only [getTotalAggregatedData, MarketState.aggregatedCount]
    exact List.length_set s.aggregatedData d _

/-- Witness for C8 at a concrete successful purchase. -/
theorem purchaseData_frame_witness :
    purchaseData st1 0 15 9 = Except.ok st1After ∧
    PurchaseFrame st1 st1After 0 15 :=
  ⟨rfl, purchaseData_frame st1 0 15 9 st1After rfl⟩

end TrafficZ

namespace DecProt

/-- C6: the protocol is idempotent on an already-proven target.  When
the target's plaintext is already committed (`isVerified`),
`decryptData` returns the stored plaintext without entering the
handshake (flag `false`: neither the decryption service nor the
contract write path is reached), a repeated phase-one request
short-circuits with `AlreadyProven` carrying the stored value, a
repeated phase-two commit short-circuits likewise, and the ledger
state — in particular every escrow balance and every sold flag — is
unchanged. -/
theorem decrypt_idempotent_on_proven (verifier : Nat → Nat → Nat → Bool)
    (svc : Nat → Nat × Nat) (canAccess : Nat → Bool) (s : LedgerState)
    (id : Nat) (b : BusinessData) (hb : s.targets[id]? = some b)
    (hv : b.isVerified = true) :
    decryptData verifier svc s id = (s, .storedValue b.decryptedValue, false) ∧
    requestDecryption canAccess s id = .alreadyProven b.decryptedValue ∧
    (∀ clear proof, verifyDecryption verifier s id clear proof =
      (s, .alreadyProven b.decryptedValue)) ∧
    (∀ a, (decryptData verifier svc s id).1.market.withdrawals a =
      s.market.withdrawals a) ∧
    (∀ d, TrafficZ.soldAt (decryptData verifier svc s id).1.market d =
      TrafficZ.soldAt s.market d) := by
  have hdec : decryptData verifier svc s id =
      (s, .storedValue b.decryptedValue, false) := by
    unfold decryptData
    rw [hb]
    simp only [hv, if_true]
  refine ⟨hdec, ?_, ?_, ?_, ?_⟩
  · unfold requestDecryption
    rw [hb]
    simp only [hv, if_true]
  · intro clear proof
    unfold verifyDecryption
    rw [hb]
    simp only [hv, if_true]
  · intro a
    rw [hdec]
  · intro d
    rw [hdec]

/-- Witness for C6 at a concrete verified target (stored plaintext
42): the short-circuit returns 42 without entering the handshake and
leaves the ledger unchanged. -/
theorem decrypt_idempotent_on_proven_witness :
    lstV.targets[0]? = some bizV ∧ bizV.isVerified = true ∧
    (decryptData verT svcT lstV 0 =
      (lstV, .storedValue bizV.decryptedValue, false) ∧
    requestDecryption accT lstV 0 = .alreadyProven bizV.decryptedValue ∧
    (∀ clear proof, verifyDecryption verT lstV 0 clear proof =
      (lstV, .alreadyProven bizV.decryptedValue)) ∧
    (∀ a, (decryptData verT svcT lstV 0).1.market.withdrawals a =
      lstV.market.withdrawals a) ∧
    (∀ d, TrafficZ.soldAt (decryptData verT svcT lstV 0).1.market d =
      TrafficZ.soldAt lstV.market d)) :=
  ⟨by decide, by decide,
   decrypt_idempotent_on_proven verT svcT accT lstV 0 bizV (by decide)
     (by decide)⟩

/-- C7: a commit whose proof fails verification against the stored
ciphertext transitions the attempt to `Failed` with `ProofInvalid` and
leaves the ledger — in particular the target, whose plaintext stays
uncommitted — unchanged; a later commit for the same target with a
proof that verifies still succeeds and commits the plaintext. -/
theorem commit_proof_invalid_then_retry (verifier : Nat → Nat → Nat → Bool)
    (s : LedgerState) (id : Nat) (b : BusinessData)
    (hb : s.targets[id]? = some b) (hnv : b.isVerified = false)
    (clear proof : Nat)
    (hfail : verifier b.encryptedValue clear proof = false) :
    verifyDecryption verifier s id clear proof = (s, .failed .ProofInvalid) ∧
    (verifyDecryption verifier s id clear proof).1.targets[id]? = some b ∧
    (∀ clear2 proof2, verifier b.encryptedValue clear2 proof2 = true →
      verifyDecryption verifier s id clear2 proof2 =
        ({ s with targets := (s.targets.set id
            { b with isVerified := true, decryptedValue := clear2 }) },
         .committed clear2)) := by
  have hcom : verifyDecryption verifier s id clear proof =
      (s, .failed .ProofInvalid) := by
    unfold verifyDecryption
    rw [hb]
    simp only [hnv, Bool.false_eq_true, if_false, hfail, if_false]
  refine ⟨hcom, ?_, ?_⟩
  · rw [hcom]
    exact hb
  · intro clear2 proof2 hok
    unfold verifyDecryption
    rw [hb]
    simp only [hnv, Bool.false_eq_true, if_false, hok, if_true]

/-- Witness for C7 at a concrete unverified target: a bad payload from
the broken service fails with `ProofInvalid` and changes nothing; the
correct payload (clear 49, proof 1, against handle 50) then commits. -/
theorem commit_proof_invalid_then_retry_witness :
    lstU.targets[0]? = some bizU ∧ bizU.isVerified = false ∧
    verT bizU.encryptedValue (svcBad 50).1 (svcBad 50).2 = false ∧
    (verifyDecryption verT lstU 0 (svcBad 50).1 (svcBad 50).2 =
      (lstU, .failed .ProofInvalid) ∧
    (verifyDecryption verT lstU 0 (svcBad 50).1 (svcBad 50).2).1.targets[0]? =
      some bizU ∧
    (∀ clear2 proof2, verT bizU.encryptedValue clear2 proof2 = true →
      verifyDecryption verT lstU 0 clear2 proof2 =
        ({ lstU with targets := (lstU.targets.set 0
            { bizU with isVerified := true, decryptedValue := clear2 }) },
         .committed clear2))) :=
  ⟨by decide, by decide, by decide,
   commit_proof_invalid_then_retry verT lstU 0 bizU (by decide) (by decide)
     (svcBad 50).1 (svcBad 50).2 (by decide)⟩

end DecProt
